import Mathlib

/-!
Verification of the VideoTransDemo congestion-control core.

This file is a shallow embedding, in Lean 4, of the pure computational core of
the Go sources: the Salsify / NDTC / BurstRTC per-frame budget controllers, the
FDACE least-squares estimator, the encoder CRF adaptation shim, the RTP FU-A /
STAP-A depacketizer of `h264_writer.go`, and the metrics summary computer.

Modelling conventions:
  * Go `float64` arithmetic is modelled by exact rational arithmetic (`ℚ`).
    For every concrete scenario proved below, the float64 result was checked
    to coincide with the rational one.
  * Go `time.Duration` is an integer number of nanoseconds, modelled by `ℤ`;
    `Duration.Seconds()` is division by 10^9 in `ℚ`.  In particular
    `time.Second / 30 = 33333333` (integer division), not 1/30 s.
  * Go `int(x)` conversion of a float truncates toward zero, modelled by
    `truncToInt`.
  * Go byte slices are `List ℕ` with values interpreted mod 256 by the bit
    operations used (`&&&`, `|||`).
  * `math.Sqrt(v)/m > 0.5` (BurstRTC coefficient of variation test, with
    `v > 0`, `m > 0`) is rendered by the equivalent square-free comparison
    `4*v > m^2`.
-/

attribute [local semireducible] Rat.add Rat.mul Rat.sub Rat.inv

/-- Go `int(x)` conversion of a nonnegative-or-negative float: truncation
toward zero. -/
def truncToInt (q : ℚ) : ℤ :=
  if q < 0 then ⌈q⌉ else ⌊q⌋

/-- The last `n` elements of a list, in order (`l[len-n:]` in Go). -/
def lastN (n : ℕ) (l : List α) : List α :=
  l.drop (l.length - n)

/-- Nanoseconds of one frame period at 30 fps: Go `time.Second / 30`. -/
def nsPerFrame30 : ℤ := 33333333

/-- `Duration.Seconds()`: nanoseconds to seconds. -/
def nsToSec (ns : ℤ) : ℚ := (ns : ℚ) / 1000000000

/-! ## Salsify controller (`salsify_controller.go`) -/

/-- One send-side frame observation (Go `SalsifyObservation`). -/
structure SalsifyObservation where
  frameID : ℤ
  sentBits : ℤ
  sendStartNs : ℤ
  sendEndNs : ℤ
  lossDetected : Bool
deriving DecidableEq, Repr

/-- Controller configuration (Go `SalsifyConfig`); durations in ns. -/
structure SalsifyConfig where
  frameIntervalNs : ℤ
  latencyTargetNs : ℤ
  safetyMargin : ℚ
  windowSize : ℤ
deriving DecidableEq, Repr

/-- Controller state (Go `SalsifyController`, without the mutex). -/
structure SalsifyController where
  cfg : SalsifyConfig
  observations : List SalsifyObservation
  avgThroughputBitsPerSec : ℚ
  lossRate : ℚ
deriving DecidableEq, Repr

/-- Go `NewSalsifyController`: apply the documented defaults. -/
def NewSalsifyController (cfg : SalsifyConfig) : SalsifyController :=
  let fi := if cfg.frameIntervalNs ≤ 0 then nsPerFrame30 else cfg.frameIntervalNs
  let sm := if cfg.safetyMargin ≤ 0 ∨ 1 < cfg.safetyMargin then (7 : ℚ)/10 else cfg.safetyMargin
  let ws := if cfg.windowSize ≤ 0 then 30 else cfg.windowSize
  let lt := if cfg.latencyTargetNs ≤ 0 then 200000000 else cfg.latencyTargetNs
  { cfg := { frameIntervalNs := fi, latencyTargetNs := lt, safetyMargin := sm, windowSize := ws }
    observations := []
    avgThroughputBitsPerSec := 0
    lossRate := 0 }

/-- The send duration one observation contributes to the throughput
denominator: `SendEnd - SendStart` in seconds, replaced by the frame interval
when it is `≤ 0`. -/
def salsifyObsDuration (cfg : SalsifyConfig) (o : SalsifyObservation) : ℚ :=
  let d := nsToSec (o.sendEndNs - o.sendStartNs)
  if d ≤ 0 then nsToSec cfg.frameIntervalNs else d

/-- Go `SalsifyController.UpdateStats`: append the observation, trim the
window to the most recent `WindowSize` entries, then recompute the windowed
throughput and loss rate. -/
def SalsifyController.UpdateStats (c : SalsifyController) (obs : SalsifyObservation) :
    SalsifyController :=
  let appended := c.observations ++ [obs]
  let w := if (appended.length : ℤ) > c.cfg.windowSize
    then lastN c.cfg.windowSize.toNat appended else appended
  let totalBits : ℤ := (w.map (·.sentBits)).sum
  let totalDurationSec : ℚ := (w.map (salsifyObsDuration c.cfg)).sum
  let lossCount : ℤ := ((w.filter (·.lossDetected)).length : ℤ)
  { c with
    observations := w
    avgThroughputBitsPerSec :=
      if 0 < totalDurationSec then (totalBits : ℚ) / totalDurationSec
      else c.avgThroughputBitsPerSec
    lossRate :=
      if 0 < w.length then (lossCount : ℚ) / (w.length : ℚ) else c.lossRate }

/-- Go `SalsifyController.NextFrameBudget`: throughput (fallback 500 kbps)
times frame interval times safety margin, loss back-off above 2 % loss,
clamped to [10000, 5000000] and truncated to an integer. -/
def SalsifyController.NextFrameBudget (c : SalsifyController) : ℤ :=
  let throughput := if c.avgThroughputBitsPerSec ≤ 0 then 500000 else c.avgThroughputBitsPerSec
  let budget := throughput * nsToSec c.cfg.frameIntervalNs * c.cfg.safetyMargin
  let budget :=
    if (2 : ℚ)/100 < c.lossRate then
      let over := c.lossRate - 2/100
      let scale := 1 - over * 10
      let scale := if scale < (3 : ℚ)/10 then (3 : ℚ)/10 else scale
      budget * scale
    else budget
  let budget := if budget < 10000 then (10000 : ℚ) else budget
  let budget := if 5000000 < budget then (5000000 : ℚ) else budget
  truncToInt budget

/-! ## NDTC controller (`ndtc_controller.go`) -/

/-- Go `NdtcConfig`; durations in ns, `mdDecrease` is the multiplicative
decrease factor (Go field `Md` + "Ratio"). -/
structure NdtcConfig where
  tFrameNs : ℤ
  tSendNs : ℤ
  tRecvNs : ℤ
  aiStep : ℚ
  mdDecrease : ℚ
deriving DecidableEq, Repr

/-- Go `NdtcController` state (without the mutex). -/
structure NdtcController where
  cfg : NdtcConfig
  capacityBps : ℚ
  lastEstimatedBps : ℚ
deriving DecidableEq, Repr

/-- Go `NewNdtcController`: 30 fps defaults; `TSend = frame*7/10`,
`TRecv = frame*8/10` with Go integer division on durations. -/
def NewNdtcController : NdtcController :=
  { cfg := { tFrameNs := nsPerFrame30
             tSendNs := nsPerFrame30 * 7 / 10
             tRecvNs := nsPerFrame30 * 8 / 10
             aiStep := 5/100
             mdDecrease := 1/2 }
    capacityBps := 0
    lastEstimatedBps := 0 }

/-- Go `NdtcController.SetConfig`. -/
def NdtcController.SetConfig (c : NdtcController) (cfg : NdtcConfig) : NdtcController :=
  { c with cfg := cfg }

/-- Go `NdtcController.OnCapacityEstimate`: ignore nonpositive estimates,
seed on first estimate, exponentially smooth afterwards (alpha = 0.1). -/
def NdtcController.OnCapacityEstimate (c : NdtcController) (A : ℚ) : NdtcController :=
  if A ≤ 0 then c
  else if c.capacityBps ≤ 0 then { c with lastEstimatedBps := A, capacityBps := A }
  else { c with lastEstimatedBps := A
                capacityBps := (1/10) * A + (1 - 1/10) * c.capacityBps }

/-- Go `NdtcController.OnLossEvent`: multiplicative decrease (factor repaired
to 0.5 when out of (0,1)). -/
def NdtcController.OnLossEvent (c : NdtcController) : NdtcController :=
  if c.capacityBps ≤ 0 then c
  else
    let md := if c.cfg.mdDecrease ≤ 0 ∨ 1 ≤ c.cfg.mdDecrease then (1 : ℚ)/2 else c.cfg.mdDecrease
    { c with cfg := { c.cfg with mdDecrease := md }
             capacityBps := c.capacityBps * md }

/-- Go `NdtcController.OnNoLossPeriod`: additive increase. -/
def NdtcController.OnNoLossPeriod (c : NdtcController) : NdtcController :=
  if c.capacityBps ≤ 0 then c
  else
    let ai := if c.cfg.aiStep ≤ 0 then (5 : ℚ)/100 else c.cfg.aiStep
    { c with cfg := { c.cfg with aiStep := ai }
             capacityBps := c.capacityBps * (1 + ai) }

/-- The frame-bits half of Go `NdtcController.NextFrameBudget`:
`F_n = T_R * A_n`, truncated, clamped to at least 1 (fallback capacity
5 Mbps, fallback `T_R = time.Second/30*8/10`). -/
def NdtcController.NextFrameBits (c : NdtcController) : ℤ :=
  let A := if c.capacityBps ≤ 0 then (5000000 : ℚ) else c.capacityBps
  let trecv := if c.cfg.tRecvNs ≤ 0 then nsPerFrame30 * 8 / 10 else c.cfg.tRecvNs
  let frameBits := truncToInt (nsToSec trecv * A)
  if frameBits < 1 then 1 else frameBits

/-- The pacing half of Go `NdtcController.NextFrameBudget`; `j` stands for
the value drawn from `rand.Float64()`. -/
def NdtcController.PacingNs (c : NdtcController) (j : ℚ) : ℤ :=
  let tsend := if c.cfg.tSendNs ≤ 0 then nsPerFrame30 * 7 / 10 else c.cfg.tSendNs
  truncToInt ((tsend : ℚ) * (1 + (1/10) * (j * 2 - 1)))

/-! ## BurstRTC controller (`burst_controller.go`) -/

/-- Go `BurstObservation`. -/
structure BurstObservation where
  frameID : ℤ
  sentBits : ℤ
  sendStartNs : ℤ
  sendEndNs : ℤ
deriving DecidableEq, Repr

/-- Go `BurstConfig`. -/
structure BurstConfig where
  frameIntervalNs : ℤ
  safetyMargin : ℚ
  windowSize : ℤ
  burstFraction : ℚ
deriving DecidableEq, Repr

/-- Go `BurstController` state (without the mutex). -/
structure BurstController where
  cfg : BurstConfig
  observations : List BurstObservation
  frameSizeMean : ℚ
  frameSizeVar : ℚ
  availableBps : ℚ
  totalBits : ℤ
  totalDurationNs : ℤ
deriving DecidableEq, Repr

/-- Go `NewBurstController`: defaults for nonpositive fields.  Note that
neither `SafetyMargin` nor `BurstFraction` is clamped from above. -/
def NewBurstController (cfg : BurstConfig) : BurstController :=
  let fi := if cfg.frameIntervalNs ≤ 0 then nsPerFrame30 else cfg.frameIntervalNs
  let sm := if cfg.safetyMargin ≤ 0 then (7 : ℚ)/10 else cfg.safetyMargin
  let ws := if cfg.windowSize ≤ 0 then 30 else cfg.windowSize
  let bf := if cfg.burstFraction ≤ 0 then (3 : ℚ)/10 else cfg.burstFraction
  { cfg := { frameIntervalNs := fi, safetyMargin := sm, windowSize := ws, burstFraction := bf }
    observations := []
    frameSizeMean := 0
    frameSizeVar := 0
    availableBps := 0
    totalBits := 0
    totalDurationNs := 0 }

/-- Go `BurstController.updateFrameSizeStats`: sample mean and, for `n ≥ 2`,
the `(n-1)`-denominator variance of the windowed frame sizes. -/
def burstFrameSizeStats (w : List BurstObservation) (oldMean oldVar : ℚ) : ℚ × ℚ :=
  let n := w.length
  if n = 0 then (oldMean, oldVar)
  else
    let mean := ((w.map (·.sentBits)).sum : ℚ) / n
    let varSum := (w.map (fun o => ((o.sentBits : ℚ) - mean) ^ 2)).sum
    (mean, if 1 < n then varSum / (n - 1 : ℕ) else 0)

/-- Go `BurstController.UpdateStats`: skip nonpositive frame sizes; append
and trim the window by evicting the single oldest entry; accumulate the
(whole-history) bit and duration totals, ignoring nonpositive durations;
refresh the mean/variance and the available-bandwidth estimate. -/
def BurstController.UpdateStats (c : BurstController) (obs : BurstObservation) :
    BurstController :=
  if obs.sentBits ≤ 0 then c
  else
    let appended := c.observations ++ [obs]
    let w := if (appended.length : ℤ) > c.cfg.windowSize then appended.tail else appended
    let totalBits := c.totalBits + obs.sentBits
    let duration := obs.sendEndNs - obs.sendStartNs
    let totalDurationNs := if 0 < duration then c.totalDurationNs + duration else c.totalDurationNs
    let stats := burstFrameSizeStats w c.frameSizeMean c.frameSizeVar
    { c with
      observations := w
      totalBits := totalBits
      totalDurationNs := totalDurationNs
      frameSizeMean := stats.1
      frameSizeVar := stats.2
      availableBps :=
        if 0 < totalDurationNs then (totalBits : ℚ) / nsToSec totalDurationNs
        else 5000000 }

/-- Go `BurstController.NextFrameBudget`: target bits from available
bandwidth (fallback 5 Mbps), truncated and clamped to at least 1; burst
fraction from the config, multiplied by 0.7 when the coefficient of
variation of the frame sizes exceeds 0.5 (rendered square-free). -/
def BurstController.NextFrameBudget (c : BurstController) : ℤ × ℚ :=
  let A := if c.availableBps ≤ 0 then (5000000 : ℚ) else c.availableBps
  let targetBits := truncToInt (A * nsToSec c.cfg.frameIntervalNs * c.cfg.safetyMargin)
  let targetBits := if targetBits < 1 then 1 else targetBits
  let burstFraction :=
    if 0 < c.frameSizeVar ∧ 0 < c.frameSizeMean ∧ 4 * c.frameSizeVar > c.frameSizeMean ^ 2
    then c.cfg.burstFraction * (7/10)
    else c.cfg.burstFraction
  (targetBits, burstFraction)

/-! ## FDACE estimator (`fdace_estimator.go`) -/

/-- One FDACE sample: send duration `S` (s), receive duration `R` (s),
frame size `L` (bits). -/
structure FdaceSample where
  frameID : ℤ
  S : ℚ
  R : ℚ
  L : ℚ
deriving DecidableEq, Repr

/-- Go `FdaceWindow` (without the mutex). -/
structure FdaceWindow where
  samples : List FdaceSample
  maxCount : ℤ
deriving DecidableEq, Repr

/-- Go `NewFdaceWindow`. -/
def NewFdaceWindow (maxCount : ℤ) : FdaceWindow :=
  { samples := [], maxCount := if maxCount ≤ 0 then 120 else maxCount }

/-- Go `FdaceWindow.UpdateSample`: skip nonpositive sizes, append, keep the
most recent `maxCount` samples. -/
def FdaceWindow.UpdateSample (w : FdaceWindow) (s : FdaceSample) : FdaceWindow :=
  if s.L ≤ 0 then w
  else
    let appended := w.samples ++ [s]
    { w with samples :=
        if (appended.length : ℤ) > w.maxCount then lastN w.maxCount.toNat appended
        else appended }

/-- The valid regression points `(S/L, R/L)` of a sample list: samples with
`L ≤ 0` are skipped.  (The Go code additionally rejects non-finite `x`, `y`;
over `ℚ` every value is finite.) -/
def fdaceValidPoints (samples : List FdaceSample) : List (ℚ × ℚ) :=
  (samples.filter (fun s => ¬ s.L ≤ 0)).map (fun s => (s.S / s.L, s.R / s.L))

/-- `n·Σx² - (Σx)²`, the least-squares denominator over a point cloud. -/
def olsDenominator (p : List (ℚ × ℚ)) : ℚ :=
  (p.length : ℚ) * (p.map (fun q => q.1 * q.1)).sum
    - (p.map (·.1)).sum * (p.map (·.1)).sum

/-- Go `FdaceWindow.EstimateAR` on the sample list: fit `y = a·x + b` by
ordinary least squares; `none` is the "no estimate" sentinel. -/
def FdaceWindow.EstimateAR (w : FdaceWindow) : Option (ℚ × ℚ) :=
  let n := w.samples.length
  if n < 2 then none
  else
    let p := fdaceValidPoints w.samples
    let valid := p.length
    if valid < 2 then none
    else
      let sumX := (p.map (·.1)).sum
      let sumY := (p.map (·.2)).sum
      let sumXX := (p.map (fun q => q.1 * q.1)).sum
      let sumXY := (p.map (fun q => q.1 * q.2)).sum
      let nf : ℚ := (valid : ℚ)
      let den := nf * sumXX - sumX * sumX
      if |den| < 1/1000000000000 then none
      else
        let a := (nf * sumXY - sumX * sumY) / den
        let b := (sumY - a * sumX) / nf
        some (a, b)

/-- Residual sum of squares of the line `y = a·x + b` on a point cloud. -/
def olsRSS (p : List (ℚ × ℚ)) (a b : ℚ) : ℚ :=
  (p.map (fun q => (q.2 - a * q.1 - b) ^ 2)).sum

/-! ## Encoder-adaptation shim (`server_ffmpeg_burst.go`) -/

/-- The CRF chosen for a target budget in Go `updateEncoderForBudgetBurst`:
32 at or below 50000 bits, 18 at or above 500000 bits, a truncated linear
interpolation in between. -/
def burstTargetCRF (targetBits : ℤ) : ℤ :=
  if targetBits ≤ 50000 then 32
  else if 500000 ≤ targetBits then 18
  else
    let frac : ℚ := ((targetBits - 50000 : ℤ) : ℚ) / ((500000 - 50000 : ℤ) : ℚ)
    32 - truncToInt (frac * ((32 - 18 : ℤ) : ℚ))

/-- The control-state effect of Go `updateEncoderForBudgetBurst` on the
successful path: given the current CRF (`-1` when no encoder has been
configured yet), return the new current CRF and whether the encoder was
rebuilt.  The encoder is kept when a CRF is already set and the new target
differs by at most 2. -/
def updateEncoderForBudgetBurst (burstCurrentCRF targetBits : ℤ) : ℤ × Bool :=
  let targetCRF := burstTargetCRF targetBits
  if 0 ≤ burstCurrentCRF ∧ |burstCurrentCRF - targetCRF| ≤ 2 then (burstCurrentCRF, false)
  else (targetCRF, true)

/-! ## RTP to Annex-B depacketizer (`h264_writer.go`, `writeH264ToFile`) -/

/-- The four-byte Annex-B start code. -/
def startCode : List ℕ := [0, 0, 0, 1]

/-- Go `writeNALUnit` closure: empty NAL data writes nothing. -/
def writeNALUnit (out nalData : List ℕ) : List ℕ :=
  if nalData = [] then out else out ++ startCode ++ nalData

/-- Fuel-indexed helper for `stapNALs`; the fuel only serves structural
recursion and `stapNALs` supplies enough of it (every step consumes at
least two bytes). -/
def stapNALsAux : ℕ → List ℕ → List (List ℕ)
  | 0, _ => []
  | _ + 1, [] => []
  | _ + 1, [_] => []
  | fuel + 1, a :: b :: rest =>
    let nalSize := a * 256 + b
    if nalSize ≤ rest.length then
      rest.take nalSize :: stapNALsAux fuel (rest.drop nalSize)
    else []

/-- The NAL units contained in a STAP-A payload body (after the STAP-A
header byte): repeatedly read a big-endian `uint16` size then that many
bytes; stop at exhaustion or when a size would overrun. -/
def stapNALs (l : List ℕ) : List (List ℕ) := stapNALsAux l.length l

/-- Depacketizer state: the FU-A reassembly buffer (`none` models Go's nil
slice), the remembered FU-A NAL type, and the bytes written to the output
file so far. -/
structure DepacketizerState where
  fuBuffer : Option (List ℕ)
  fuNALType : ℕ
  out : List ℕ
deriving DecidableEq, Repr

/-- The depacketizer's starting state. -/
def initialDepacketizerState : DepacketizerState :=
  { fuBuffer := none, fuNALType := 0, out := [] }

/-- One iteration of the read loop of Go `writeH264ToFile`, restricted to
its file-output effect (metrics recording does not touch the byte stream).
Empty payloads are skipped; types 1-23 are single NAL units; type 24 is
STAP-A; type 28 is FU-A; all other types are logged and skipped. -/
def processPayload (s : DepacketizerState) (payload : List ℕ) : DepacketizerState :=
  match payload with
  | [] => s
  | nalHeader :: rest =>
    let nalType := nalHeader &&& 31
    if 1 ≤ nalType ∧ nalType ≤ 23 then
      { s with out := writeNALUnit s.out payload, fuBuffer := none }
    else if nalType = 24 then
      { s with out := (stapNALs rest).foldl writeNALUnit s.out, fuBuffer := none }
    else if nalType = 28 then
      match rest with
      | [] => s
      | fuHeader :: frag =>
        let isStart := fuHeader &&& 128 ≠ 0
        let isEnd := fuHeader &&& 64 ≠ 0
        let actualNALType := fuHeader &&& 31
        if isStart then
          let buf := ((nalHeader &&& 224) ||| actualNALType) :: frag
          if isEnd then
            { fuBuffer := none, fuNALType := actualNALType, out := writeNALUnit s.out buf }
          else
            { s with fuBuffer := some buf, fuNALType := actualNALType }
        else
          match s.fuBuffer with
          | some buf =>
            if actualNALType = s.fuNALType then
              let buf := buf ++ frag
              if isEnd then
                { s with fuBuffer := none, out := writeNALUnit s.out buf }
              else
                { s with fuBuffer := some buf }
            else
              { s with fuBuffer := none }
          | none => { s with fuBuffer := none }
    else s

/-- The read loop over a packet sequence. -/
def processPackets (s : DepacketizerState) (payloads : List (List ℕ)) : DepacketizerState :=
  payloads.foldl processPayload s

/-! ## Metrics summary (`metrics_summary.go`) -/

/-- One successfully parsed data row of `client_metrics.csv`. -/
structure MetricRow where
  timestampMs : ℤ
  frameIndex : ℤ
  latencyMs : ℚ
  stall : Bool
  bitrateKbps : ℚ
deriving DecidableEq, Repr

/-- Go `SummaryMetrics`. -/
structure SummaryMetrics where
  totalFrames : ℕ
  averageLatencyMs : ℚ
  p99LatencyMs : ℚ
  stallRate : ℚ
  effectiveBitrateKbps : ℚ
  totalStallFrames : ℕ
  totalDurationSeconds : ℚ
deriving DecidableEq, Repr

/-- Insert into an ascending list. -/
def insertAsc (x : ℚ) : List ℚ → List ℚ
  | [] => [x]
  | y :: t => if x ≤ y then x :: y :: t else y :: insertAsc x t

/-- Ascending insertion sort (Go `sort.Float64s`). -/
def sortAsc (l : List ℚ) : List ℚ := l.foldr insertAsc []

/-- Go `CalculateSummaryMetrics` on the successfully parsed data rows
(rows the Go loop skips for parse errors are not in the list; the
`len(records) < 2` header check and the empty-latency check both become
`rows = []`). -/
def CalculateSummaryMetrics (rows : List MetricRow) : Option SummaryMetrics :=
  if rows = [] then none
  else
    let latencies := rows.map (·.latencyMs)
    let stallCount := (rows.filter (·.stall)).length
    let bitrateRows := rows.filter (fun r => 0 < r.bitrateKbps)
    let firstTimestamp := rows.foldl (fun acc r => if acc = 0 then r.timestampMs else acc) 0
    let lastTimestamp := rows.foldl (fun _ r => r.timestampMs) 0
    let n := latencies.length
    let averageLatency := latencies.sum / (n : ℚ)
    let sorted := sortAsc latencies
    let p99Index : ℤ := truncToInt ((n : ℚ) * (99/100))
    let p99Index := if (n : ℤ) ≤ p99Index then (n : ℤ) - 1 else p99Index
    let p99Latency := sorted.getD p99Index.toNat 0
    let stallRate := (stallCount : ℚ) / (n : ℚ)
    let avgBitrate :=
      if 0 < bitrateRows.length then
        ((bitrateRows.map (·.bitrateKbps)).sum) / (bitrateRows.length : ℚ)
      else 0
    some { totalFrames := n
           averageLatencyMs := averageLatency
           p99LatencyMs := p99Latency
           stallRate := stallRate
           effectiveBitrateKbps := avgBitrate
           totalStallFrames := stallCount
           totalDurationSeconds := ((lastTimestamp - firstTimestamp : ℤ) : ℚ) / 1000 }

/-- The 99th percentile by the nearest-rank method: the `⌈0.99·n⌉`-th
smallest latency (1-indexed). -/
def nearestRankP99 (latencies : List ℚ) : ℚ :=
  (sortAsc latencies).getD (⌈(latencies.length : ℚ) * (99/100)⌉ - 1).toNat 0

/-! ## Named scenario inputs and claim-side reference definitions -/

/-- NDTC controller with default configuration, capacity seeded at
4 Mbit/s via the estimator path. -/
def ndtcSeeded : NdtcController := NewNdtcController.OnCapacityEstimate 4000000

/-- One frame observation of the Salsify 3 % loss scenario: 20000 bits sent
over 10 ms. -/
def salsifyDemoObs (loss : Bool) : SalsifyObservation :=
  { frameID := 1, sentBits := 20000, sendStartNs := 0, sendEndNs := 10000000,
    lossDetected := loss }

/-- The Salsify scenario controller: window size 100, fed 100 observations
(3 of them lossy), so the window yields throughput 2 Mbit/s and loss rate
0.03 exactly. -/
def salsifyDemoController : SalsifyController :=
  ((List.replicate 97 (salsifyDemoObs false)) ++ List.replicate 3 (salsifyDemoObs true)).foldl
    SalsifyController.UpdateStats (NewSalsifyController ⟨0, 0, 0, 100⟩)

/-- Windowed throughput of a Salsify observation list, as the code computes
it: total bits over total send durations, a nonpositive duration replaced by
the frame interval. -/
def windowThroughput (cfg : SalsifyConfig) (w : List SalsifyObservation) : ℚ :=
  (((w.map (·.sentBits)).sum : ℤ) : ℚ) / (w.map (salsifyObsDuration cfg)).sum

/-- Windowed throughput as the claim describes it: every send duration
clamped from below to the frame period.  Written from the claim wording, to
be compared against the code. -/
def clampedWindowThroughput (cfg : SalsifyConfig) (w : List SalsifyObservation) : ℚ :=
  (((w.map (·.sentBits)).sum : ℤ) : ℚ) /
    (w.map (fun o =>
      max (nsToSec (o.sendEndNs - o.sendStartNs)) (nsToSec cfg.frameIntervalNs))).sum

/-- An RTP payload that is an FU-A fragment without the end-marker bit
(including a truncated FU-A packet of a single byte, which the loop skips). -/
def isFuaNoEnd : List ℕ → Bool
  | h :: f :: _ => (h &&& 31 == 28) && (f &&& 64 == 0)
  | [h] => h &&& 31 == 28
  | [] => false

/-- 100 valid metric rows with latencies 1..100 ms and no stalls. -/
def demoMetricRows : List MetricRow :=
  (List.range 100).map (fun i =>
    { timestampMs := 0, frameIndex := (i : ℤ), latencyMs := ((i : ℚ) + 1),
      stall := false, bitrateKbps := 0 })

/-- A two-sample FDACE window whose regression points are (0,0) and (1,1). -/
def fdaceDemoWindow : FdaceWindow :=
  { samples := [⟨1, 0, 0, 1⟩, ⟨2, 1, 1, 1⟩], maxCount := 120 }

/-- A two-sample FDACE window whose least-squares denominator is exactly
10^-12. -/
def fdaceBoundaryWindow : FdaceWindow :=
  { samples := [⟨1, 1/1000000, 1, 1⟩, ⟨2, 0, 1, 1⟩], maxCount := 120 }

/-! ## Helper lemmas -/

theorem truncToInt_of_nonneg {q : ℚ} (h : 0 ≤ q) : truncToInt q = ⌊q⌋ := by
  simp [truncToInt, not_lt.2 h]

theorem lastN_length (n : ℕ) (l : List α) : (lastN n l).length = min n l.length := by
  simp [lastN]
  omega

theorem lastN_of_le {n : ℕ} {l : List α} (h : l.length ≤ n) : lastN n l = l := by
  simp [lastN, Nat.sub_eq_zero_of_le h]

theorem lastN_append_right {n : ℕ} (pre s : List α) (h : n ≤ s.length) :
    lastN n (pre ++ s) = lastN n s := by
  unfold lastN
  have : pre.length + s.length - n = pre.length + (s.length - n) := by omega
  rw [List.length_append, this, List.drop_append]

theorem lastN_append_lastN (n : ℕ) (m t : List α) :
    lastN n (lastN n m ++ t) = lastN n (m ++ t) := by
  by_cases h : m.length ≤ n
  · rw [lastN_of_le h]
  · push_neg at h
    have hlen : (m.drop (m.length - n)).length = n := by
      simp
      omega
    calc lastN n (lastN n m ++ t)
        = lastN n (m.drop (m.length - n) ++ t) := rfl
      _ = lastN n (m.take (m.length - n) ++ (m.drop (m.length - n) ++ t)) :=
          (lastN_append_right (m.take (m.length - n)) (m.drop (m.length - n) ++ t)
            (by rw [List.length_append, hlen]; omega)).symm
      _ = lastN n (m ++ t) := by rw [← List.append_assoc, List.take_append_drop]

section SanityChecks

example : NewNdtcController.cfg.tRecvNs = 26666666 := by decide
example : NewNdtcController.cfg.tSendNs = 23333333 := by decide
example :
    ((NewNdtcController.OnCapacityEstimate 4000000).OnLossEvent).NextFrameBits = 53333 := by
  decide
example : burstTargetCRF 275000 = 25 := by decide
example : burstTargetCRF 40000 = 32 := by decide
example :
    (processPackets initialDepacketizerState
      [[124, 133, 170], [124, 5, 187], [124, 69, 204]]).out
    = [0, 0, 0, 1, 101, 170, 187, 204] := by decide
example : stapNALs [0, 3, 170, 187, 204, 0, 2, 221, 238] = [[170, 187, 204], [221, 238]] := by
  decide

end SanityChecks

/-! ## Claim C4: NDTC loss response -/

/-- Claim C4: on a controller with positive capacity and a multiplicative
decrease factor in (0,1), `OnLossEvent` multiplies the capacity by that
factor; for the default controller seeded at 4 Mbit/s this gives exactly
2 Mbit/s, and the next frame budget is 53333 bits, the integer floor of
`2e6 * 0.8 / 30`. -/
theorem ndtc_loss_response :
    (∀ c : NdtcController, 0 < c.capacityBps → 0 < c.cfg.mdDecrease → c.cfg.mdDecrease < 1 →
      c.OnLossEvent.capacityBps = c.capacityBps * c.cfg.mdDecrease) ∧
    ndtcSeeded.OnLossEvent.capacityBps = 2000000 ∧
    ndtcSeeded.OnLossEvent.NextFrameBits = 53333 ∧
    ⌊(2000000 : ℚ) * (8/10) / 30⌋ = 53333 := by
  refine ⟨?_, by decide, by decide, by decide⟩
  intro c h1 h2 h3
  have hnot : ¬ c.capacityBps ≤ 0 := not_le.2 h1
  have hmd : ¬ (c.cfg.mdDecrease ≤ 0 ∨ 1 ≤ c.cfg.mdDecrease) := by
    push_neg
    exact ⟨h2, h3⟩
  simp [NdtcController.OnLossEvent, hnot, hmd]

/-- Witness for C4 at the seeded controller. -/
theorem ndtc_loss_response_witness :
    ndtcSeeded.OnLossEvent.capacityBps = ndtcSeeded.capacityBps * ndtcSeeded.cfg.mdDecrease :=
  ndtc_loss_response.1 ndtcSeeded (by decide) (by decide) (by decide)

/-! ## Claim C5: CRF mapping and rebuild hysteresis -/

theorem burstTargetCRF_range (t : ℤ) : 18 ≤ burstTargetCRF t ∧ burstTargetCRF t ≤ 32 := by
  simp only [burstTargetCRF]
  split_ifs with h1 h2
  · omega
  · omega
  · push_neg at h1 h2
    have hden : ((500000 - 50000 : ℤ) : ℚ) = 450000 := by norm_num
    have h14 : ((32 - 18 : ℤ) : ℚ) = 14 := by norm_num
    rw [hden, h14]
    have ht0 : (0 : ℚ) ≤ ((t - 50000 : ℤ) : ℚ) := by
      exact_mod_cast (by omega : (0 : ℤ) ≤ t - 50000)
    have ht1 : ((t - 50000 : ℤ) : ℚ) < 450000 := by
      exact_mod_cast (by omega : (t - 50000 : ℤ) < 450000)
    have h0 : (0 : ℚ) ≤ ((t - 50000 : ℤ) : ℚ) / 450000 * 14 := by positivity
    rw [truncToInt_of_nonneg h0]
    have hlow : 0 ≤ ⌊((t - 50000 : ℤ) : ℚ) / 450000 * 14⌋ := Int.le_floor.2 (by exact_mod_cast h0)
    have hup : ⌊((t - 50000 : ℤ) : ℚ) / 450000 * 14⌋ < 14 := by
      apply Int.floor_lt.2
      push_cast at ht1 ⊢
      rw [div_mul_eq_mul_div, div_lt_iff₀ (by norm_num : (0 : ℚ) < 450000)]
      linarith
    omega

/-- Claim C5: the encoder shim selects CRF 32 at or below 50000 bits, CRF 18
at or above 500000 bits, and in between a value within 1 of the exact linear
interpolation from (50000, 32) to (500000, 18) and inside [18, 32]; a rebuild
happens only when the newly selected CRF differs from the stored one by more
than 2, and a difference of exactly 1 never rebuilds. -/
theorem crf_mapping_hysteresis :
    (∀ t : ℤ, t ≤ 50000 → burstTargetCRF t = 32) ∧
    (∀ t : ℤ, 500000 ≤ t → burstTargetCRF t = 18) ∧
    (∀ t : ℤ, 50000 < t → t < 500000 →
      18 ≤ burstTargetCRF t ∧ burstTargetCRF t ≤ 32 ∧
      32 - 14 * ((t : ℚ) - 50000) / 450000 ≤ (burstTargetCRF t : ℚ) ∧
      (burstTargetCRF t : ℚ) < 32 - 14 * ((t : ℚ) - 50000) / 450000 + 1) ∧
    (∀ cur t : ℤ, (updateEncoderForBudgetBurst cur t).2 = true →
      2 < |burstTargetCRF t - cur|) ∧
    (∀ cur t : ℤ, |burstTargetCRF t - cur| = 1 →
      (updateEncoderForBudgetBurst cur t).2 = false) := by
  have hmid : ∀ t : ℤ, 50000 < t → t < 500000 →
      burstTargetCRF t
        = 32 - ⌊((t - 50000 : ℤ) : ℚ) / 450000 * 14⌋ := by
    intro t h1 h2
    simp only [burstTargetCRF, if_neg (by omega : ¬ t ≤ 50000),
      if_neg (by omega : ¬ 500000 ≤ t)]
    have hden : ((500000 - 50000 : ℤ) : ℚ) = 450000 := by norm_num
    have h14 : ((32 - 18 : ℤ) : ℚ) = 14 := by norm_num
    rw [hden, h14]
    have ht0 : (0 : ℚ) ≤ ((t - 50000 : ℤ) : ℚ) := by
      exact_mod_cast (by omega : (0 : ℤ) ≤ t - 50000)
    rw [truncToInt_of_nonneg (by positivity)]
  refine ⟨?_, ?_, ?_, ?_, ?_⟩
  · intro t h
    simp [burstTargetCRF, h]
  · intro t h
    simp only [burstTargetCRF, if_neg (by omega : ¬ t ≤ 50000), if_pos h]
  · intro t h1 h2
    obtain ⟨hr1, hr2⟩ := burstTargetCRF_range t
    refine ⟨hr1, hr2, ?_, ?_⟩
    · rw [hmid t h1 h2]
      have hfl : (⌊((t - 50000 : ℤ) : ℚ) / 450000 * 14⌋ : ℚ)
          ≤ ((t - 50000 : ℤ) : ℚ) / 450000 * 14 := Int.floor_le _
      push_cast at hfl ⊢
      linarith [hfl]
    · rw [hmid t h1 h2]
      have hfl : ((t - 50000 : ℤ) : ℚ) / 450000 * 14
          < ⌊((t - 50000 : ℤ) : ℚ) / 450000 * 14⌋ + 1 := Int.lt_floor_add_one _
      push_cast at hfl ⊢
      linarith [hfl]
  · intro cur t h
    obtain ⟨hr1, hr2⟩ := burstTargetCRF_range t
    simp only [updateEncoderForBudgetBurst] at h
    by_cases hcase : 0 ≤ cur ∧ |cur - burstTargetCRF t| ≤ 2
    · rw [if_pos hcase] at h
      simp at h
    · rcases not_and_or.1 hcase with hneg | habs
      · push_neg at hneg
        rw [abs_of_nonneg (show (0 : ℤ) ≤ burstTargetCRF t - cur by omega)]
        omega
      · push_neg at habs
        rwa [abs_sub_comm] at habs
  · intro cur t h
    obtain ⟨hr1, hr2⟩ := burstTargetCRF_range t
    have hcur : 0 ≤ cur := by
      by_contra hneg
      push_neg at hneg
      rw [abs_of_nonneg (show (0 : ℤ) ≤ burstTargetCRF t - cur by omega)] at h
      omega
    simp only [updateEncoderForBudgetBurst]
    rw [if_pos ⟨hcur, by rw [abs_sub_comm, h]; norm_num⟩]

/-- Witness for C5: concrete budgets on each branch, plus a one-unit CRF
change not rebuilding. -/
theorem crf_mapping_hysteresis_witness :
    burstTargetCRF 40000 = 32 ∧ burstTargetCRF 600000 = 18 ∧
    (18 ≤ burstTargetCRF 250000 ∧ burstTargetCRF 250000 ≤ 32 ∧
      32 - 14 * ((250000 : ℚ) - 50000) / 450000 ≤ (burstTargetCRF 250000 : ℚ) ∧
      (burstTargetCRF 250000 : ℚ) < 32 - 14 * ((250000 : ℚ) - 50000) / 450000 + 1) ∧
    (updateEncoderForBudgetBurst 25 250000).2 = false :=
  ⟨crf_mapping_hysteresis.1 40000 (by decide),
   crf_mapping_hysteresis.2.1 600000 (by decide),
   crf_mapping_hysteresis.2.2.1 250000 (by decide) (by decide),
   crf_mapping_hysteresis.2.2.2.2 25 250000 (by decide)⟩


/-! ## Claim C3: controller output bounds -/

theorem truncToInt_clamp_bounds (q : ℚ) :
    10000 ≤ truncToInt (if 5000000 < (if q < 10000 then (10000 : ℚ) else q)
        then (5000000 : ℚ) else (if q < 10000 then (10000 : ℚ) else q)) ∧
    truncToInt (if 5000000 < (if q < 10000 then (10000 : ℚ) else q)
        then (5000000 : ℚ) else (if q < 10000 then (10000 : ℚ) else q)) ≤ 5000000 := by
  have hbounds : (10000 : ℚ) ≤ (if 5000000 < (if q < 10000 then (10000 : ℚ) else q)
        then (5000000 : ℚ) else (if q < 10000 then (10000 : ℚ) else q)) ∧
      (if 5000000 < (if q < 10000 then (10000 : ℚ) else q)
        then (5000000 : ℚ) else (if q < 10000 then (10000 : ℚ) else q)) ≤ 5000000 := by
    split_ifs with h1 h2 h3
    · constructor <;> norm_num
    · constructor <;> norm_num
    · constructor <;> norm_num
    · exact ⟨le_of_not_lt h1, le_of_not_lt h3⟩
  obtain ⟨hlo, hhi⟩ := hbounds
  rw [truncToInt_of_nonneg (by linarith)]
  constructor
  · exact Int.le_floor.2 (by exact_mod_cast hlo)
  · exact_mod_cast le_trans (Int.floor_le _) hhi

theorem burst_updateStats_cfg (c : BurstController) (o : BurstObservation) :
    (c.UpdateStats o).cfg = c.cfg := by
  simp only [BurstController.UpdateStats]
  split_ifs <;> rfl

theorem burst_fold_cfg (c : BurstController) (obss : List BurstObservation) :
    (obss.foldl BurstController.UpdateStats c).cfg = c.cfg := by
  induction obss generalizing c with
  | nil => rfl
  | cons o t ih => rw [List.foldl_cons, ih, burst_updateStats_cfg]

theorem newBurst_burstFraction_pos (cfg : BurstConfig) :
    0 < (NewBurstController cfg).cfg.burstFraction := by
  simp only [NewBurstController]
  split_ifs with h
  · norm_num
  · linarith [not_le.1 h]

theorem burst_budget_fraction_cases (c : BurstController) :
    (c.NextFrameBudget).2 = c.cfg.burstFraction ∨
    (c.NextFrameBudget).2 = c.cfg.burstFraction * (7/10) := by
  simp only [BurstController.NextFrameBudget]
  split_ifs <;> simp

/-- Claim C3: every NDTC budget is at least 1 bit; every Salsify budget lies
in [10000, 5000000]; every BurstRTC target is at least 1 bit; and for every
reachable BurstRTC controller the burst fraction is positive, and at most 1
whenever the configured fraction (after constructor defaults) is at most 1.
The claim's unconditional interval (0, 1] fails: the constructor does not
clamp `BurstFraction` from above (see the counterexample). -/
theorem controller_budget_bounds :
    (∀ c : NdtcController, 1 ≤ c.NextFrameBits) ∧
    (∀ c : SalsifyController,
      10000 ≤ c.NextFrameBudget ∧ c.NextFrameBudget ≤ 5000000) ∧
    (∀ c : BurstController, 1 ≤ (c.NextFrameBudget).1) ∧
    (∀ cfg : BurstConfig, ∀ obss : List BurstObservation,
      0 < ((obss.foldl BurstController.UpdateStats (NewBurstController cfg)).NextFrameBudget).2 ∧
      ((NewBurstController cfg).cfg.burstFraction ≤ 1 →
        ((obss.foldl BurstController.UpdateStats (NewBurstController cfg)).NextFrameBudget).2 ≤ 1)) := by
  refine ⟨?_, ?_, ?_, ?_⟩
  · intro c
    simp only [NdtcController.NextFrameBits]
    split_ifs <;> omega
  · intro c
    simp only [SalsifyController.NextFrameBudget]
    exact truncToInt_clamp_bounds _
  · intro c
    simp only [BurstController.NextFrameBudget]
    split_ifs <;> omega
  · intro cfg obss
    have hcfg : (obss.foldl BurstController.UpdateStats (NewBurstController cfg)).cfg
        = (NewBurstController cfg).cfg := burst_fold_cfg _ _
    have hbf := newBurst_burstFraction_pos cfg
    rcases burst_budget_fraction_cases
        (obss.foldl BurstController.UpdateStats (NewBurstController cfg)) with h | h <;>
      rw [h, hcfg]
    · exact ⟨hbf, fun h1 => h1⟩
    · exact ⟨by positivity, fun h1 => by nlinarith⟩

/-- Witness for C3 at the default BurstRTC configuration, whose burst
fraction 0.3 is within (0, 1]. -/
theorem controller_budget_bounds_witness :
    0 < ((([] : List BurstObservation).foldl BurstController.UpdateStats
        (NewBurstController ⟨0, 0, 0, 0⟩)).NextFrameBudget).2 ∧
    ((([] : List BurstObservation).foldl BurstController.UpdateStats
        (NewBurstController ⟨0, 0, 0, 0⟩)).NextFrameBudget).2 ≤ 1 :=
  ⟨(controller_budget_bounds.2.2.2 _ []).1,
   (controller_budget_bounds.2.2.2 _ []).2 (by decide)⟩

/-- Counterexample for C3: a configuration with `BurstFraction = 2` is
accepted unchanged by the constructor, and `NextFrameBudget` then returns a
burst fraction of 2, outside the claimed interval (0, 1]. -/
theorem burst_fraction_above_one :
    ((NewBurstController ⟨0, 0, 0, 2⟩).NextFrameBudget).2 = 2 ∧
    ¬ ((NewBurstController ⟨0, 0, 0, 2⟩).NextFrameBudget).2 ≤ 1 := by
  constructor <;> decide

/-! ## Claim C2: Salsify budget formula and 3 percent loss scenario -/

set_option maxRecDepth 10000

/-- Claim C2 (amended): when throughput is established, the loss rate is
above 2 percent, and the unclamped product lies inside the clamp interval,
`NextFrameBudget` is the integer truncation of
`throughput * frame_interval * safety_margin * max(0.3, 1 - 10*(loss - 0.02))`;
for the scenario controller (2 Mbit/s, 3 percent loss, default margin 0.7,
frame interval `time.Second/30`) the returned budget is 41999 bits, not the
42000 of the claim (exact value `41999.99958`, truncated). -/
theorem salsify_budget_formula :
    (∀ c : SalsifyController, 0 < c.avgThroughputBitsPerSec → 2/100 < c.lossRate →
      (10000 : ℚ) ≤ c.avgThroughputBitsPerSec * nsToSec c.cfg.frameIntervalNs
          * c.cfg.safetyMargin * max (3/10) (1 - (c.lossRate - 2/100) * 10) →
      c.avgThroughputBitsPerSec * nsToSec c.cfg.frameIntervalNs
          * c.cfg.safetyMargin * max (3/10) (1 - (c.lossRate - 2/100) * 10) ≤ 5000000 →
      c.NextFrameBudget = ⌊c.avgThroughputBitsPerSec * nsToSec c.cfg.frameIntervalNs
          * c.cfg.safetyMargin * max (3/10) (1 - (c.lossRate - 2/100) * 10)⌋) ∧
    salsifyDemoController.avgThroughputBitsPerSec = 2000000 ∧
    salsifyDemoController.lossRate = 3/100 ∧
    salsifyDemoController.NextFrameBudget = 41999 := by
  refine ⟨?_, by decide, by decide, by decide⟩
  intro c h1 h2 h3 h4
  have hmax : (if 1 - (c.lossRate - 2/100) * 10 < (3 : ℚ)/10 then (3 : ℚ)/10
      else 1 - (c.lossRate - 2/100) * 10) = max (3/10) (1 - (c.lossRate - 2/100) * 10) := by
    rcases lt_or_le (1 - (c.lossRate - 2/100) * 10) ((3 : ℚ)/10) with h | h
    · rw [if_pos h, max_eq_left h.le]
    · rw [if_neg (not_lt.2 h), max_eq_right h]
  simp only [SalsifyController.NextFrameBudget, if_neg (not_le.2 h1), if_pos h2, hmax,
    if_neg (not_lt.2 h3), if_neg (not_lt.2 h4)]
  exact truncToInt_of_nonneg (by linarith)

/-- Witness for C2 at the scenario controller. -/
theorem salsify_budget_formula_witness :
    salsifyDemoController.NextFrameBudget
      = ⌊salsifyDemoController.avgThroughputBitsPerSec
          * nsToSec salsifyDemoController.cfg.frameIntervalNs
          * salsifyDemoController.cfg.safetyMargin
          * max (3/10) (1 - (salsifyDemoController.lossRate - 2/100) * 10)⌋ :=
  salsify_budget_formula.1 salsifyDemoController (by decide) (by decide) (by decide) (by decide)

/-- Counterexample for C2: the scenario budget is 41999 bits, not the
claimed 42000 (the Go frame period `time.Second/30` is 33333333 ns, and the
resulting product 41999.99958 is truncated). -/
theorem salsify_budget_not_42000 :
    salsifyDemoController.NextFrameBudget = 41999 ∧
    salsifyDemoController.NextFrameBudget ≠ 42000 := by
  constructor <;> decide

/-! ## Claim C7: sample-window evolution -/

theorem salsify_updateStats_cfg (c : SalsifyController) (o : SalsifyObservation) :
    (c.UpdateStats o).cfg = c.cfg := rfl

theorem salsify_updateStats_observations (c : SalsifyController) (o : SalsifyObservation) :
    (c.UpdateStats o).observations
      = if ((c.observations ++ [o]).length : ℤ) > c.cfg.windowSize
        then lastN c.cfg.windowSize.toNat (c.observations ++ [o])
        else c.observations ++ [o] := rfl

theorem salsify_updateStats_window (c : SalsifyController) (o : SalsifyObservation) :
    (c.UpdateStats o).observations = lastN c.cfg.windowSize.toNat (c.observations ++ [o]) := by
  rw [salsify_updateStats_observations]
  split_ifs with hlen
  · rfl
  · rw [lastN_of_le (by push_neg at hlen; omega)]

theorem newSalsify_windowSize_pos (cfg : SalsifyConfig) :
    0 < (NewSalsifyController cfg).cfg.windowSize := by
  simp only [NewSalsifyController]
  split_ifs <;> omega

theorem newBurst_windowSize_pos (cfg : BurstConfig) :
    0 < (NewBurstController cfg).cfg.windowSize := by
  simp only [NewBurstController]
  split_ifs <;> omega

theorem salsify_fold_window (obss : List SalsifyObservation) (c : SalsifyController)
    (hlen : c.observations.length ≤ c.cfg.windowSize.toNat) :
    (obss.foldl SalsifyController.UpdateStats c).observations
      = lastN c.cfg.windowSize.toNat (c.observations ++ obss) := by
  induction obss generalizing c with
  | nil => simp [lastN_of_le hlen]
  | cons o t ih =>
    rw [List.foldl_cons]
    have hobs := salsify_updateStats_window c o
    have step := ih (c.UpdateStats o)
      (by rw [salsify_updateStats_cfg, hobs, lastN_length]; omega)
    rw [salsify_updateStats_cfg] at step
    rw [step, hobs, lastN_append_lastN]
    simp

theorem burst_updateStats_window (c : BurstController) (o : BurstObservation)
    (hpos : 0 < o.sentBits) (hlen : c.observations.length ≤ c.cfg.windowSize.toNat) :
    (c.UpdateStats o).observations = lastN c.cfg.windowSize.toNat (c.observations ++ [o]) := by
  simp only [BurstController.UpdateStats, if_neg (not_le.2 hpos)]
  split_ifs with hl
  · have hlen2 : (c.observations ++ [o]).length = c.cfg.windowSize.toNat + 1 := by
      simp only [List.length_append, List.length_cons, List.length_nil] at hl ⊢
      omega
    unfold lastN
    rw [hlen2, show c.cfg.windowSize.toNat + 1 - c.cfg.windowSize.toNat = 1 by omega,
      List.drop_one]
  · rw [lastN_of_le (by push_neg at hl; omega)]

theorem burst_fold_window (obss : List BurstObservation) (hpos : ∀ o ∈ obss, 0 < o.sentBits)
    (c : BurstController) (hlen : c.observations.length ≤ c.cfg.windowSize.toNat) :
    (obss.foldl BurstController.UpdateStats c).observations
      = lastN c.cfg.windowSize.toNat (c.observations ++ obss) := by
  induction obss generalizing c with
  | nil => simp [lastN_of_le hlen]
  | cons o t ih =>
    rw [List.foldl_cons]
    have hobs := burst_updateStats_window c o (hpos o (by simp)) hlen
    have step := ih (fun x hx => hpos x (by simp [hx])) (c.UpdateStats o)
      (by rw [burst_updateStats_cfg, hobs, lastN_length]; omega)
    rw [burst_updateStats_cfg] at step
    rw [step, hobs, lastN_append_lastN]
    simp

/-- Claim C7 (amended): for every observation sequence with positive bit
counts, after folding the first `i` observations into a fresh controller the
window holds exactly the most recent `N` of them in insertion order and has
length `min i N`, for both the Salsify and the BurstRTC window.  (Salsify
needs no positivity; BurstRTC skips nonpositive frame sizes, so the claim's
"non-negative" fails at a zero-bit observation - see the counterexample.) -/
theorem sample_window_evolution :
    (∀ (cfg : SalsifyConfig) (obss : List SalsifyObservation) (i : ℕ), i ≤ obss.length →
      ((obss.take i).foldl SalsifyController.UpdateStats
          (NewSalsifyController cfg)).observations
        = lastN (NewSalsifyController cfg).cfg.windowSize.toNat (obss.take i) ∧
      ((obss.take i).foldl SalsifyController.UpdateStats
          (NewSalsifyController cfg)).observations.length
        = min i (NewSalsifyController cfg).cfg.windowSize.toNat) ∧
    (∀ (cfg : BurstConfig) (obss : List BurstObservation), (∀ o ∈ obss, 0 < o.sentBits) →
      ∀ i : ℕ, i ≤ obss.length →
      ((obss.take i).foldl BurstController.UpdateStats
          (NewBurstController cfg)).observations
        = lastN (NewBurstController cfg).cfg.windowSize.toNat (obss.take i) ∧
      ((obss.take i).foldl BurstController.UpdateStats
          (NewBurstController cfg)).observations.length
        = min i (NewBurstController cfg).cfg.windowSize.toNat) := by
  constructor
  · intro cfg obss i hi
    have h := salsify_fold_window (obss.take i) (NewSalsifyController cfg)
      (by rw [show (NewSalsifyController cfg).observations = [] from rfl]; exact Nat.zero_le _)
    rw [show (NewSalsifyController cfg).observations = [] from rfl, List.nil_append] at h
    refine ⟨h, ?_⟩
    rw [h, lastN_length, List.length_take]
    omega
  · intro cfg obss hpos i hi
    have h := burst_fold_window (obss.take i)
      (fun o ho => hpos o (List.mem_of_mem_take ho)) (NewBurstController cfg)
      (by rw [show (NewBurstController cfg).observations = [] from rfl]; exact Nat.zero_le _)
    rw [show (NewBurstController cfg).observations = [] from rfl, List.nil_append] at h
    refine ⟨h, ?_⟩
    rw [h, lastN_length, List.length_take]
    omega

/-- Witness for C7 on a two-observation sequence. -/
theorem sample_window_evolution_witness :
    (([(⟨1, 5, 0, 1, false⟩ : SalsifyObservation), ⟨2, 6, 1, 2, false⟩].take 2).foldl
        SalsifyController.UpdateStats (NewSalsifyController ⟨0, 0, 0, 0⟩)).observations
      = lastN (NewSalsifyController ⟨0, 0, 0, 0⟩).cfg.windowSize.toNat
          ([(⟨1, 5, 0, 1, false⟩ : SalsifyObservation), ⟨2, 6, 1, 2, false⟩].take 2) ∧
    (([(⟨1, 7, 0, 1⟩ : BurstObservation), ⟨2, 8, 1, 2⟩].take 2).foldl
        BurstController.UpdateStats (NewBurstController ⟨0, 0, 0, 0⟩)).observations.length
      = min 2 (NewBurstController ⟨0, 0, 0, 0⟩).cfg.windowSize.toNat :=
  ⟨(sample_window_evolution.1 ⟨0, 0, 0, 0⟩ [⟨1, 5, 0, 1, false⟩, ⟨2, 6, 1, 2, false⟩]
      2 (by decide)).1,
   (sample_window_evolution.2 ⟨0, 0, 0, 0⟩ [⟨1, 7, 0, 1⟩, ⟨2, 8, 1, 2⟩]
      (by decide) 2 (by decide)).2⟩

/-- Counterexample for C7: one zero-bit observation (non-negative, as the
claim allows) is skipped by the BurstRTC window, so after the first record
the window length is 0, not `min 1 N = 1`. -/
theorem burst_window_skips_zero_bits :
    (([(⟨1, 0, 0, 10000000⟩ : BurstObservation)].take 1).foldl BurstController.UpdateStats
        (NewBurstController ⟨0, 0, 0, 0⟩)).observations.length
      ≠ min 1 (NewBurstController ⟨0, 0, 0, 0⟩).cfg.windowSize.toNat := by
  decide

/-! ## Claim C8: nonpositive-size observations -/

theorem lastN_getLast? {n : ℕ} (hn : 0 < n) (l : List α) (hl : l ≠ []) :
    (lastN n l).getLast? = l.getLast? := by
  have hlpos : 0 < l.length := List.length_pos.2 hl
  have hne : l.drop (l.length - n) ≠ [] := by
    intro hcon
    have h2 : (l.drop (l.length - n)).length = 0 := by rw [hcon]; rfl
    rw [List.length_drop] at h2
    omega
  conv_lhs => rw [show lastN n l = l.drop (l.length - n) from rfl]
  conv_rhs => rw [← List.take_append_drop (l.length - n) l]
  rw [List.getLast?_append_of_ne_nil _ hne]

/-- Claim C8 (amended): a nonpositive-size observation leaves the BurstRTC
controller completely unchanged (stored observations and all derived
statistics); the Salsify controller has no such guard - `UpdateStats`
appends every observation, so the recorded observation is always the last
window element.  The claim's no-op therefore fails for Salsify (see the
counterexample). -/
theorem record_nonpositive_guard :
    (∀ (c : BurstController) (o : BurstObservation), o.sentBits ≤ 0 → c.UpdateStats o = c) ∧
    (∀ (c : SalsifyController) (o : SalsifyObservation), 0 < c.cfg.windowSize →
      (c.UpdateStats o).observations.getLast? = some o) := by
  constructor
  · intro c o h
    simp [BurstController.UpdateStats, h]
  · intro c o h
    rw [salsify_updateStats_window, lastN_getLast? (by omega) _ (by simp),
      List.getLast?_concat]

/-- Witness for C8: a zero-bit observation is a no-op on a concrete BurstRTC
controller, and a concrete Salsify record ends up last in the window. -/
theorem record_nonpositive_guard_witness :
    (NewBurstController ⟨0, 0, 0, 0⟩).UpdateStats ⟨1, 0, 0, 10000000⟩
      = NewBurstController ⟨0, 0, 0, 0⟩ ∧
    ((NewSalsifyController ⟨0, 0, 0, 0⟩).UpdateStats
        ⟨1, 0, 0, 10000000, false⟩).observations.getLast?
      = some ⟨1, 0, 0, 10000000, false⟩ :=
  ⟨record_nonpositive_guard.1 _ _ (by decide),
   record_nonpositive_guard.2 _ _ (by decide)⟩

/-- Counterexample for C8: Salsify `UpdateStats` is not a no-op on an
observation with `SentBits = 0 ≤ 0`; it appends the observation and changes
the derived statistics. -/
theorem salsify_record_appends_zero_bits :
    (NewSalsifyController ⟨0, 0, 0, 0⟩).UpdateStats ⟨1, 0, 0, 10000000, false⟩
      ≠ NewSalsifyController ⟨0, 0, 0, 0⟩ := by
  decide

/-! ## Claim C9: window throughput -/

theorem salsify_updateStats_avg (c : SalsifyController) (obs : SalsifyObservation)
    (h : 0 < ((c.UpdateStats obs).observations.map (salsifyObsDuration c.cfg)).sum) :
    (c.UpdateStats obs).avgThroughputBitsPerSec
      = windowThroughput c.cfg (c.UpdateStats obs).observations := by
  have hobs : (c.UpdateStats obs).observations
      = if ((c.observations ++ [obs]).length : ℤ) > c.cfg.windowSize
        then lastN c.cfg.windowSize.toNat (c.observations ++ [obs])
        else c.observations ++ [obs] := rfl
  have havg : (c.UpdateStats obs).avgThroughputBitsPerSec
      = if 0 < (((c.UpdateStats obs).observations).map (salsifyObsDuration c.cfg)).sum
        then (((((c.UpdateStats obs).observations).map (·.sentBits)).sum : ℤ) : ℚ)
            / (((c.UpdateStats obs).observations).map (salsifyObsDuration c.cfg)).sum
        else c.avgThroughputBitsPerSec := rfl
  rw [havg, if_pos h, windowThroughput]

theorem burst_updateStats_totals (c : BurstController) (o : BurstObservation)
    (h : 0 < o.sentBits) :
    (c.UpdateStats o).totalBits = c.totalBits + o.sentBits ∧
    (c.UpdateStats o).totalDurationNs = c.totalDurationNs +
      (if 0 < o.sendEndNs - o.sendStartNs then o.sendEndNs - o.sendStartNs else 0) ∧
    (c.UpdateStats o).availableBps
      = if 0 < (c.UpdateStats o).totalDurationNs
        then (((c.UpdateStats o).totalBits : ℤ) : ℚ) / nsToSec (c.UpdateStats o).totalDurationNs
        else 5000000 := by
  simp only [BurstController.UpdateStats, if_neg (not_le.2 h)]
  refine ⟨trivial, ?_, trivial⟩
  split_ifs <;> omega

theorem burst_updateStats_skip (c : BurstController) (o : BurstObservation)
    (h : ¬ 0 < o.sentBits) : c.UpdateStats o = c := by
  simp [BurstController.UpdateStats, not_lt.1 h]

theorem burst_fold_totals (obss : List BurstObservation) (c : BurstController) :
    ((obss.foldl BurstController.UpdateStats c).totalBits
        = c.totalBits + ((obss.filter (fun o => 0 < o.sentBits)).map (·.sentBits)).sum) ∧
    ((obss.foldl BurstController.UpdateStats c).totalDurationNs
        = c.totalDurationNs + ((obss.filter (fun o => 0 < o.sentBits)).map
            (fun o => if 0 < o.sendEndNs - o.sendStartNs
              then o.sendEndNs - o.sendStartNs else 0)).sum) ∧
    ((0 < c.totalDurationNs →
        c.availableBps = ((c.totalBits : ℤ) : ℚ) / nsToSec c.totalDurationNs) →
      (0 < (obss.foldl BurstController.UpdateStats c).totalDurationNs →
        (obss.foldl BurstController.UpdateStats c).availableBps
          = (((obss.foldl BurstController.UpdateStats c).totalBits : ℤ) : ℚ)
              / nsToSec (obss.foldl BurstController.UpdateStats c).totalDurationNs)) := by
  induction obss generalizing c with
  | nil =>
    refine ⟨by simp, by simp, fun hc => hc⟩
  | cons o t ih =>
    rw [List.foldl_cons, List.filter_cons]
    by_cases hpos : 0 < o.sentBits
    · obtain ⟨h1, h2, h3⟩ := burst_updateStats_totals c o hpos
      obtain ⟨ih1, ih2, ih3⟩ := ih (c.UpdateStats o)
      rw [if_pos (by simp [hpos])]
      simp only [List.map_cons, List.sum_cons]
      refine ⟨?_, ?_, ?_⟩
      · rw [ih1, h1]
        omega
      · rw [ih2, h2]
        omega
      · intro _
        exact ih3 (fun h0 => by rw [h3, if_pos h0])
    · rw [burst_updateStats_skip c o hpos, if_neg (by simp [hpos])]
      exact ih c

/-- Claim C9 (amended): the Salsify cached throughput equals, over the
current window, total bits divided by total send durations, where only a
**nonpositive** send duration is replaced by the frame period (a short but
positive duration counts as is, contrary to the claim's clamping - see the
counterexample); the BurstRTC available-bandwidth estimate is cumulative
over all recorded observations (not windowed), nonpositive durations
contribute nothing to its denominator, and it equals total bits over total
duration whenever that total duration is positive. -/
theorem window_throughput_formula :
    (∀ (c : SalsifyController) (obs : SalsifyObservation),
      0 < (((c.UpdateStats obs).observations).map (salsifyObsDuration c.cfg)).sum →
      (c.UpdateStats obs).avgThroughputBitsPerSec
        = windowThroughput c.cfg (c.UpdateStats obs).observations) ∧
    (∀ (cfg : BurstConfig) (obss : List BurstObservation),
      (obss.foldl BurstController.UpdateStats (NewBurstController cfg)).totalBits
        = ((obss.filter (fun o => 0 < o.sentBits)).map (·.sentBits)).sum ∧
      (obss.foldl BurstController.UpdateStats (NewBurstController cfg)).totalDurationNs
        = ((obss.filter (fun o => 0 < o.sentBits)).map
            (fun o => if 0 < o.sendEndNs - o.sendStartNs
              then o.sendEndNs - o.sendStartNs else 0)).sum ∧
      (0 < (obss.foldl BurstController.UpdateStats (NewBurstController cfg)).totalDurationNs →
        (obss.foldl BurstController.UpdateStats (NewBurstController cfg)).availableBps
          = (((obss.foldl BurstController.UpdateStats (NewBurstController cfg)).totalBits : ℤ) : ℚ)
              / nsToSec (obss.foldl BurstController.UpdateStats
                  (NewBurstController cfg)).totalDurationNs)) := by
  constructor
  · exact salsify_updateStats_avg
  · intro cfg obss
    obtain ⟨h1, h2, h3⟩ := burst_fold_totals obss (NewBurstController cfg)
    have hz : (NewBurstController cfg).totalBits = 0 := rfl
    have hzd : (NewBurstController cfg).totalDurationNs = 0 := rfl
    rw [hz, zero_add] at h1
    rw [hzd, zero_add] at h2
    exact ⟨h1, h2, h3 (fun h0 => absurd (hzd ▸ h0) (lt_irrefl 0))⟩

/-- Witness for C9 on a one-observation Salsify window. -/
theorem window_throughput_formula_witness :
    ((NewSalsifyController ⟨0, 0, 0, 0⟩).UpdateStats
        ⟨1, 1000, 0, 10000000, false⟩).avgThroughputBitsPerSec
      = windowThroughput (NewSalsifyController ⟨0, 0, 0, 0⟩).cfg
          ((NewSalsifyController ⟨0, 0, 0, 0⟩).UpdateStats
            ⟨1, 1000, 0, 10000000, false⟩).observations :=
  window_throughput_formula.1 _ _ (by decide)

/-- Counterexample for C9: an observation of 1000 bits sent in 10 ms (below
the 33.3 ms frame period) yields throughput 1000/0.01 = 100000 bit/s; the
claim's from-below clamping of each duration to the frame period would give
1000/0.033333333 = 30000.00003 bit/s instead. -/
theorem salsify_throughput_not_clamped :
    ((NewSalsifyController ⟨0, 0, 0, 0⟩).UpdateStats
        ⟨1, 1000, 0, 10000000, false⟩).avgThroughputBitsPerSec = 100000 ∧
    ((NewSalsifyController ⟨0, 0, 0, 0⟩).UpdateStats
        ⟨1, 1000, 0, 10000000, false⟩).avgThroughputBitsPerSec
      ≠ clampedWindowThroughput (NewSalsifyController ⟨0, 0, 0, 0⟩).cfg
          ((NewSalsifyController ⟨0, 0, 0, 0⟩).UpdateStats
            ⟨1, 1000, 0, 10000000, false⟩).observations := by
  constructor <;> decide

/-! ## Claim C6: FDACE sentinel and least squares -/

theorem olsRSS_expand (p : List (ℚ × ℚ)) (a b u v : ℚ) :
    olsRSS p (a + u) (b + v)
      = olsRSS p a b
        - 2 * u * ((p.map (fun q => q.1 * q.2)).sum
            - a * (p.map (fun q => q.1 * q.1)).sum - b * (p.map (·.1)).sum)
        - 2 * v * ((p.map (·.2)).sum - a * (p.map (·.1)).sum - b * (p.length : ℚ))
        + (p.map (fun q => (u * q.1 + v) ^ 2)).sum := by
  induction p with
  | nil =>
    simp [olsRSS]
  | cons q t ih =>
    simp only [olsRSS, List.map_cons, List.sum_cons, List.length_cons] at ih ⊢
    push_cast
    linear_combination ih

theorem olsRSS_min (p : List (ℚ × ℚ)) (a b : ℚ)
    (h1 : a * (p.map (fun q => q.1 * q.1)).sum + b * (p.map (·.1)).sum
      = (p.map (fun q => q.1 * q.2)).sum)
    (h2 : a * (p.map (·.1)).sum + b * (p.length : ℚ) = (p.map (·.2)).sum)
    (u v : ℚ) : olsRSS p a b ≤ olsRSS p u v := by
  have hexp := olsRSS_expand p a b (u - a) (v - b)
  rw [show a + (u - a) = u by ring, show b + (v - b) = v by ring,
    show (p.map (fun q => q.1 * q.2)).sum
        - a * (p.map (fun q => q.1 * q.1)).sum - b * (p.map (·.1)).sum = 0 by linarith,
    show (p.map (·.2)).sum - a * (p.map (·.1)).sum - b * (p.length : ℚ) = 0 by linarith]
      at hexp
  rw [hexp]
  have hnn : 0 ≤ (p.map (fun q => (u - a) * q.1 + (v - b)) |>.map (fun x => x ^ 2)).sum := by
    apply List.sum_nonneg
    intro x hx
    obtain ⟨y, _, rfl⟩ := List.mem_map.1 hx
    exact sq_nonneg y
  rw [List.map_map] at hnn
  have hsq : (p.map (fun q => ((u - a) * q.1 + (v - b)) ^ 2)).sum
      = (p.map ((fun x => x ^ 2) ∘ fun q => (u - a) * q.1 + (v - b))).sum := rfl
  linarith [hsq ▸ hnn]

theorem fdaceValidPoints_length_le (samples : List FdaceSample) :
    (fdaceValidPoints samples).length ≤ samples.length := by
  rw [fdaceValidPoints, List.length_map]
  exact List.length_filter_le _ _

/-- Claim C6 (amended): `EstimateAR` reports the no-estimate sentinel exactly
when fewer than 2 valid points exist or the least-squares denominator is
**strictly** below 10^-12 in absolute value (the code uses a strict
comparison, so a denominator of exactly 10^-12 still yields an estimate -
see the counterexample); whenever it returns a pair `(a, b)`, that pair
satisfies the ordinary-least-squares normal equations and minimises the
residual sum of squares over the valid points. -/
theorem fdace_estimate_sentinel_and_ols (w : FdaceWindow) :
    (w.EstimateAR = none ↔
      ((fdaceValidPoints w.samples).length < 2 ∨
        |olsDenominator (fdaceValidPoints w.samples)| < 1/1000000000000)) ∧
    (∀ a b : ℚ, w.EstimateAR = some (a, b) →
      (a * ((fdaceValidPoints w.samples).map (fun q => q.1 * q.1)).sum
          + b * ((fdaceValidPoints w.samples).map (·.1)).sum
        = ((fdaceValidPoints w.samples).map (fun q => q.1 * q.2)).sum) ∧
      (a * ((fdaceValidPoints w.samples).map (·.1)).sum
          + b * ((fdaceValidPoints w.samples).length : ℚ)
        = ((fdaceValidPoints w.samples).map (·.2)).sum) ∧
      (∀ u v : ℚ, olsRSS (fdaceValidPoints w.samples) a b
        ≤ olsRSS (fdaceValidPoints w.samples) u v)) := by
  simp only [FdaceWindow.EstimateAR, olsDenominator]
  split_ifs with h1 h2 h3
  · constructor
    · constructor
      · intro _
        exact Or.inl (lt_of_le_of_lt (fdaceValidPoints_length_le w.samples) h1)
      · intro _
        rfl
    · intro a b hcon
      exact absurd hcon (by simp)
  · constructor
    · exact ⟨fun _ => Or.inl h2, fun _ => rfl⟩
    · intro a b hcon
      exact absurd hcon (by simp)
  · constructor
    · exact ⟨fun _ => Or.inr h3, fun _ => rfl⟩
    · intro a b hcon
      exact absurd hcon (by simp)
  · push_neg at h2 h3
    have hnf : ((fdaceValidPoints w.samples).length : ℚ) ≠ 0 := by
      have : 0 < (fdaceValidPoints w.samples).length := by omega
      positivity
    have hden : ((fdaceValidPoints w.samples).length : ℚ)
        * ((fdaceValidPoints w.samples).map (fun q => q.1 * q.1)).sum
        - ((fdaceValidPoints w.samples).map (·.1)).sum
          * ((fdaceValidPoints w.samples).map (·.1)).sum ≠ 0 := by
      intro hcon
      rw [hcon] at h3
      norm_num at h3
    constructor
    · constructor
      · intro hcon
        exact absurd hcon (by simp)
      · intro hor
        rcases hor with h | h
        · omega
        · exact absurd h (not_lt.2 h3)
    · intro a b hab
      rw [Option.some.injEq, Prod.mk.injEq] at hab
      obtain ⟨ha, hb⟩ := hab
      subst ha
      subst hb
      refine ⟨?_, ?_, ?_⟩
      · field_simp
        ring
      · field_simp
        ring
      · intro u v
        exact olsRSS_min _ _ _ (by field_simp; ring) (by field_simp; ring) u v


/-- Witness for C6: on the window with points (0,0) and (1,1) the estimate
is the line `y = 1*x + 0`; it satisfies the first normal equation and its
residual sum of squares is no larger than that of the line `y = 2*x + 5`. -/
theorem fdace_estimate_sentinel_and_ols_witness :
    (1 * ((fdaceValidPoints fdaceDemoWindow.samples).map (fun q => q.1 * q.1)).sum
        + 0 * ((fdaceValidPoints fdaceDemoWindow.samples).map (·.1)).sum
      = ((fdaceValidPoints fdaceDemoWindow.samples).map (fun q => q.1 * q.2)).sum) ∧
    olsRSS (fdaceValidPoints fdaceDemoWindow.samples) 1 0
      ≤ olsRSS (fdaceValidPoints fdaceDemoWindow.samples) 2 5 :=
  ⟨((fdace_estimate_sentinel_and_ols fdaceDemoWindow).2 1 0 (by decide)).1,
   ((fdace_estimate_sentinel_and_ols fdaceDemoWindow).2 1 0 (by decide)).2.2 2 5⟩

/-- Counterexample for C6: a window whose least-squares denominator is
exactly 10^-12 - which "does not exceed 10^-12", so the claim demands the
sentinel - still produces an estimate, because the code's comparison is
strict.  (The same happens in float64: with x = 1e-6 the computed
denominator is bitwise equal to the 1e-12 literal and `den < 1e-12` is
false.) -/
theorem fdace_denominator_boundary :
    |olsDenominator (fdaceValidPoints fdaceBoundaryWindow.samples)| = 1/1000000000000 ∧
    fdaceBoundaryWindow.EstimateAR ≠ none := by
  constructor <;> decide

/-! ## Claim C10: summary p99 and stall rate -/

theorem p99_index_eq (n : ℕ) :
    truncToInt ((n : ℚ) * (99/100)) = (99 * (n : ℤ)) / 100 := by
  rw [truncToInt_of_nonneg (by positivity),
    show (n : ℚ) * (99/100) = ((99 * (n : ℤ) : ℤ) : ℚ) / ((100 : ℕ) : ℚ) by push_cast; ring,
    Rat.floor_intCast_div_natCast]
  norm_num

theorem p99_ceil_eq (n : ℕ) (h : ¬ (100 : ℕ) ∣ n) :
    ⌈(n : ℚ) * (99/100)⌉ - 1 = (99 * (n : ℤ)) / 100 := by
  have hd : ¬ (100 : ℤ) ∣ 99 * (n : ℤ) := by
    intro hcon
    apply h
    have : (100 : ℤ) ∣ (n : ℤ) := by omega
    exact_mod_cast this
  have hceil : ⌈(n : ℚ) * (99/100)⌉ = -⌊-((n : ℚ) * (99/100))⌋ := by
    rw [Int.floor_neg, neg_neg]
  rw [hceil,
    show -((n : ℚ) * (99/100)) = ((-(99 * (n : ℤ)) : ℤ) : ℚ) / ((100 : ℕ) : ℚ) by
      push_cast; ring,
    Rat.floor_intCast_div_natCast]
  push_cast
  omega

/-- Claim C10 (amended): for every nonempty valid-row list the summary's
stall rate is the number of stall rows over the number of valid rows, a
fraction in [0, 1]; the reported p99 latency is the sorted latency at
0-based index `⌊0.99*n⌋`, which coincides with the nearest-rank 99th
percentile whenever `n` is not a multiple of 100 (at multiples of 100 the
code returns the next order statistic instead - see the counterexample). -/
theorem summary_p99_stall (rows : List MetricRow) (h : rows ≠ []) (s : SummaryMetrics)
    (hs : CalculateSummaryMetrics rows = some s) :
    s.stallRate = ((rows.filter (·.stall)).length : ℚ) / (rows.length : ℚ) ∧
    0 ≤ s.stallRate ∧ s.stallRate ≤ 1 ∧
    s.p99LatencyMs
      = (sortAsc (rows.map (·.latencyMs))).getD ((99 * (rows.length : ℤ)) / 100).toNat 0 ∧
    (¬ (100 : ℕ) ∣ rows.length →
      s.p99LatencyMs = nearestRankP99 (rows.map (·.latencyMs))) := by
  have hn : 0 < rows.length := List.length_pos.2 h
  simp only [CalculateSummaryMetrics, if_neg h, Option.some.injEq] at hs
  subst hs
  have hidx : ¬ ((rows.map (·.latencyMs)).length : ℤ)
      ≤ truncToInt (((rows.map (·.latencyMs)).length : ℚ) * (99/100)) := by
    rw [p99_index_eq, List.length_map]
    omega
  refine ⟨?_, ?_, ?_, ?_, ?_⟩
  · simp only [List.length_map]
  · have hc : (0 : ℚ) ≤ ((rows.filter (·.stall)).length : ℚ) := by positivity
    have hl : (0 : ℚ) ≤ ((rows.map (·.latencyMs)).length : ℚ) := by positivity
    exact div_nonneg hc hl
  · have hcount : (rows.filter (·.stall)).length ≤ rows.length := List.length_filter_le _ _
    rw [div_le_one (by rw [List.length_map]; exact_mod_cast hn)]
    rw [List.length_map]
    exact_mod_cast hcount
  · rw [if_neg hidx, p99_index_eq, List.length_map]
  · intro h100
    simp only [nearestRankP99, List.length_map, p99_ceil_eq rows.length h100,
      if_neg hidx, p99_index_eq]
    rw [if_neg (show ¬ ((rows.length : ℤ) ≤ 99 * (rows.length : ℤ) / 100) by omega)]

/-- Witness for C10 on a single stalled row: p99 equals the nearest-rank
percentile (1 is not a multiple of 100) and the stall rate 1 is within
bounds. -/
theorem summary_p99_stall_witness :
    (⟨1, 42, 42, 1, 7, 1, 0⟩ : SummaryMetrics).p99LatencyMs
      = nearestRankP99 ([(⟨5, 1, 42, true, 7⟩ : MetricRow)].map (·.latencyMs)) ∧
    (⟨1, 42, 42, 1, 7, 1, 0⟩ : SummaryMetrics).stallRate ≤ 1 :=
  ⟨(summary_p99_stall [⟨5, 1, 42, true, 7⟩] (by decide) ⟨1, 42, 42, 1, 7, 1, 0⟩
      (by decide)).2.2.2.2 (by decide),
   (summary_p99_stall [⟨5, 1, 42, true, 7⟩] (by decide) ⟨1, 42, 42, 1, 7, 1, 0⟩
      (by decide)).2.2.1⟩

/-- Counterexample for C10: with 100 rows of latencies 1..100 ms the code
reports p99 = 100 (the maximum, sorted index `int(100*0.99) = 99`), while
the nearest-rank 99th percentile is 99. -/
theorem p99_not_nearest_rank_at_100 :
    ((CalculateSummaryMetrics demoMetricRows).getD ⟨0, 0, 0, 0, 0, 0, 0⟩).p99LatencyMs = 100 ∧
    nearestRankP99 (demoMetricRows.map (·.latencyMs)) = 99 ∧
    ((CalculateSummaryMetrics demoMetricRows).getD ⟨0, 0, 0, 0, 0, 0, 0⟩).p99LatencyMs
      ≠ nearestRankP99 (demoMetricRows.map (·.latencyMs)) := by
  refine ⟨by decide, by decide, by decide⟩

/-! ## Claim C1: FU-A reassembly -/

theorem processPayload_fuaNoEnd (s : DepacketizerState) (p : List ℕ)
    (h : isFuaNoEnd p = true) : (processPayload s p).out = s.out := by
  match p with
  | [] => simp [isFuaNoEnd] at h
  | [h0] =>
    simp only [isFuaNoEnd, beq_iff_eq] at h
    simp [processPayload, h]
  | h0 :: f :: frag =>
    simp only [isFuaNoEnd, Bool.and_eq_true, beq_iff_eq] at h
    obtain ⟨h28, hend⟩ := h
    simp only [processPayload, h28]
    norm_num
    by_cases hstart : f &&& 128 ≠ 0
    · simp [hstart, hend]
    · push_neg at hstart
      simp only [hstart, ne_eq, not_true_eq_false, if_false, reduceIte]
      cases hbuf : s.fuBuffer with
      | none => simp
      | some buf =>
        by_cases htype : f &&& 31 = s.fuNALType
        · simp [htype, hend]
        · simp [htype]

theorem processPackets_noEnd (ps : List (List ℕ)) (s : DepacketizerState)
    (h : ∀ p ∈ ps, isFuaNoEnd p = true) : (processPackets s ps).out = s.out := by
  induction ps generalizing s with
  | nil => rfl
  | cons p t ih =>
    rw [processPackets, List.foldl_cons]
    rw [show List.foldl processPayload (processPayload s p) t
        = processPackets (processPayload s p) t from rfl]
    rw [ih (processPayload s p) (fun q hq => h q (by simp [hq])),
      processPayload_fuaNoEnd s p (h p (by simp))]

theorem processPayload_mismatch (s : DepacketizerState) (h0 f : ℕ) (frag : List ℕ)
    (h28 : h0 &&& 31 = 28) (hstart : f &&& 128 = 0) (htype : f &&& 31 ≠ s.fuNALType) :
    (processPayload s (h0 :: f :: frag)).fuBuffer = none ∧
    (processPayload s (h0 :: f :: frag)).out = s.out := by
  simp only [processPayload, h28]
  norm_num
  simp only [hstart, ne_eq, not_true_eq_false, if_false]
  cases hbuf : s.fuBuffer with
  | none => simp
  | some buf => simp [htype]

theorem processPayload_start (s : DepacketizerState) (hs fs : ℕ) (a : List ℕ)
    (h28 : hs &&& 31 = 28) (hstart : fs &&& 128 ≠ 0) (hend : fs &&& 64 = 0) :
    processPayload s (hs :: fs :: a)
      = { s with fuBuffer := some (((hs &&& 224) ||| (fs &&& 31)) :: a),
                 fuNALType := fs &&& 31 } := by
  simp only [processPayload, h28]
  norm_num
  simp [hstart, hend]

theorem processPayload_continuation (s : DepacketizerState) (hm fm : ℕ) (pm : List ℕ)
    (buf : List ℕ) (hbuf : s.fuBuffer = some buf) (h28 : hm &&& 31 = 28)
    (hstart : fm &&& 128 = 0) (hend : fm &&& 64 = 0) (htype : fm &&& 31 = s.fuNALType) :
    processPayload s (hm :: fm :: pm) = { s with fuBuffer := some (buf ++ pm) } := by
  simp only [processPayload, h28]
  norm_num
  simp [hstart, hbuf, htype, hend]

theorem processPayload_endMarker (s : DepacketizerState) (he fe : ℕ) (cpay : List ℕ)
    (buf : List ℕ) (hbuf : s.fuBuffer = some buf) (hne : buf ++ cpay ≠ [])
    (h28 : he &&& 31 = 28) (hstart : fe &&& 128 = 0) (hend : fe &&& 64 ≠ 0)
    (htype : fe &&& 31 = s.fuNALType) :
    processPayload s (he :: fe :: cpay)
      = { s with fuBuffer := none, out := s.out ++ startCode ++ (buf ++ cpay) } := by
  simp only [processPayload, h28]
  norm_num
  simp [hstart, hbuf, htype, hend, writeNALUnit, hne]

theorem processPackets_continuations (mids : List (List ℕ)) (t : ℕ)
    (hmids : ∀ m ∈ mids, ∃ hm fm pm, m = hm :: fm :: pm ∧ hm &&& 31 = 28 ∧
      fm &&& 128 = 0 ∧ fm &&& 64 = 0 ∧ fm &&& 31 = t) :
    ∀ (s : DepacketizerState) (buf : List ℕ), s.fuBuffer = some buf → s.fuNALType = t →
    processPackets s mids
      = { s with fuBuffer := some (buf ++ (mids.map (fun m => m.drop 2)).flatten) } := by
  induction mids with
  | nil =>
    intro s buf hbuf ht
    cases s
    simp_all [processPackets]
  | cons m rest ih =>
    intro s buf hbuf ht
    obtain ⟨hm, fm, pm, rfl, h28, hstart, hend, htype⟩ := hmids m (by simp)
    have hstep := processPayload_continuation s hm fm pm buf hbuf h28 hstart hend
      (htype.trans ht.symm)
    have hih := ih (fun q hq => hmids q (by simp [hq]))
      { s with fuBuffer := some (buf ++ pm) } (buf ++ pm) rfl ht
    calc processPackets s ((hm :: fm :: pm) :: rest)
        = processPackets (processPayload s (hm :: fm :: pm)) rest := rfl
      _ = processPackets { s with fuBuffer := some (buf ++ pm) } rest := by rw [hstep]
      _ = _ := by rw [hih]; simp [List.append_assoc]

/-- Claim C1: in the FU-A path of the depacketizer, (i) a packet sequence of
FU-A fragments none of which carries the end-marker bit appends nothing to
the output; (ii) a continuation fragment whose low-5-bit type differs from
the remembered type discards the entire in-progress buffer and emits
nothing; (iii) a well-formed fragment sequence (start fragment, matching
continuations, end fragment) emits exactly one NAL unit: the four-byte start
code, the reconstructed header `(original & 0xE0) | actualType`, and the
fragment payloads with their two-byte FU headers stripped, in arrival
order. -/
theorem fua_depacketizer_emission :
    (∀ (ps : List (List ℕ)) (s : DepacketizerState), (∀ p ∈ ps, isFuaNoEnd p = true) →
      (processPackets s ps).out = s.out) ∧
    (∀ (s : DepacketizerState) (h0 f : ℕ) (frag : List ℕ),
      h0 &&& 31 = 28 → f &&& 128 = 0 → f &&& 31 ≠ s.fuNALType →
      (processPayload s (h0 :: f :: frag)).fuBuffer = none ∧
      (processPayload s (h0 :: f :: frag)).out = s.out) ∧
    (∀ (s : DepacketizerState) (hs fs : ℕ) (a : List ℕ) (mids : List (List ℕ))
        (he fe : ℕ) (cpay : List ℕ),
      hs &&& 31 = 28 → fs &&& 128 ≠ 0 → fs &&& 64 = 0 →
      (∀ m ∈ mids, ∃ hm fm pm, m = hm :: fm :: pm ∧ hm &&& 31 = 28 ∧
        fm &&& 128 = 0 ∧ fm &&& 64 = 0 ∧ fm &&& 31 = fs &&& 31) →
      he &&& 31 = 28 → fe &&& 128 = 0 → fe &&& 64 ≠ 0 → fe &&& 31 = fs &&& 31 →
      (processPackets s ((hs :: fs :: a) :: mids ++ [he :: fe :: cpay])).out
        = s.out ++ startCode
            ++ ((hs &&& 224) ||| (fs &&& 31))
                :: (a ++ (mids.map (fun m => m.drop 2)).flatten ++ cpay) ∧
      (processPackets s ((hs :: fs :: a) :: mids ++ [he :: fe :: cpay])).fuBuffer
        = none) := by
  refine ⟨?_, ?_, ?_⟩
  · intro ps s h
    exact processPackets_noEnd ps s h
  · intro s h0 f frag h28 hstart htype
    exact processPayload_mismatch s h0 f frag h28 hstart htype
  · intro s hs fs a mids he fe cpay h28s hstart hends hmids h28e hstarte hende htypee
    have hstep : processPackets s ((hs :: fs :: a) :: mids ++ [he :: fe :: cpay])
        = processPackets
            { s with fuBuffer := some (((hs &&& 224) ||| (fs &&& 31)) :: a),
                     fuNALType := fs &&& 31 }
            (mids ++ [he :: fe :: cpay]) := by
      rw [show processPackets s ((hs :: fs :: a) :: mids ++ [he :: fe :: cpay])
          = processPackets (processPayload s (hs :: fs :: a))
              (mids ++ [he :: fe :: cpay]) from rfl,
        processPayload_start s hs fs a h28s hstart hends]
    have hmid := processPackets_continuations mids (fs &&& 31) hmids
      { s with fuBuffer := some (((hs &&& 224) ||| (fs &&& 31)) :: a),
               fuNALType := fs &&& 31 }
      (((hs &&& 224) ||| (fs &&& 31)) :: a) rfl rfl
    have hpackets : processPackets
        { s with fuBuffer := some (((hs &&& 224) ||| (fs &&& 31)) :: a),
                 fuNALType := fs &&& 31 }
        (mids ++ [he :: fe :: cpay])
        = processPayload
            { s with fuBuffer := some ((((hs &&& 224) ||| (fs &&& 31)) :: a)
                        ++ (mids.map (fun m => m.drop 2)).flatten),
                     fuNALType := fs &&& 31 }
            (he :: fe :: cpay) := by
      rw [processPackets, List.foldl_append, List.foldl_cons, List.foldl_nil]
      rw [show List.foldl processPayload
            { s with fuBuffer := some (((hs &&& 224) ||| (fs &&& 31)) :: a),
                     fuNALType := fs &&& 31 } mids
          = processPackets
            { s with fuBuffer := some (((hs &&& 224) ||| (fs &&& 31)) :: a),
                     fuNALType := fs &&& 31 } mids from rfl, hmid]
    have hfinal := processPayload_endMarker
      { s with fuBuffer := some ((((hs &&& 224) ||| (fs &&& 31)) :: a)
                  ++ (mids.map (fun m => m.drop 2)).flatten),
               fuNALType := fs &&& 31 }
      he fe cpay
      ((((hs &&& 224) ||| (fs &&& 31)) :: a) ++ (mids.map (fun m => m.drop 2)).flatten)
      rfl (by simp) h28e hstarte hende htypee
    rw [hstep, hpackets, hfinal]
    constructor
    · simp [List.append_assoc]
    · rfl

/-- Witness for C1 on the specification's example sequence: start fragment
`7C 85 AA`, middle `7C 05 BB`, end `7C 45 CC` emit the start code followed
by `65 AA BB CC`. -/
theorem fua_depacketizer_emission_witness :
    (processPackets initialDepacketizerState
        [[124, 133, 170], [124, 5, 187], [124, 69, 204]]).out
      = [0, 0, 0, 1, 101, 170, 187, 204] ∧
    (processPackets initialDepacketizerState
        [[124, 133, 170], [124, 5, 187], [124, 69, 204]]).fuBuffer = none := by
  have h := fua_depacketizer_emission.2.2 initialDepacketizerState 124 133 [170]
    [[124, 5, 187]] 124 69 [204] (by decide) (by decide) (by decide)
    (by
      intro m hm
      rw [List.mem_singleton] at hm
      subst hm
      exact ⟨124, 5, [187], rfl, by decide, by decide, by decide, by decide⟩)
    (by decide) (by decide) (by decide) (by decide)
  exact ⟨h.1.trans (by decide), h.2⟩
